import Mathlib

/-!
Shallow embedding of the timeline resolution and layout engine of
`src/bin/movie/make_movie.py`, together with theorems settling the frozen
claims about it.

Strings are modelled as `List Char` (`Str`), times and volumes as exact
rationals, Python `int(...)` truncation as `pyInt`, and the file-system /
media probes (`os.path.exists`, audio duration) as explicit oracle
functions passed to the embedded program.  The external render backend
(`write_videofile`) is out of scope: the terminal artifact of the core is
the fully resolved `ProjectTimeline`, modelled here as the result of
`create_video_from_json`; `none` models the early returns that produce no
output file.
-/

/-- Python strings, modelled as lists of characters. -/
abbrev Str := List Char

/-- Python `int(...)` applied to a rational: truncation toward zero. -/
def pyInt (q : ℚ) : ℤ := if q < 0 then ⌈q⌉ else ⌊q⌋

/-- Python `str.split('\n')`: always returns at least one piece; a piece per
newline boundary, newline characters removed. -/
def splitLines : Str → List Str
  | [] => [[]]
  | c :: cs =>
    if c = '\n' then [] :: splitLines cs
    else (c :: (splitLines cs).headI) :: (splitLines cs).tail

/-- All characters of a string except the newline characters, in order. -/
def removeNewlines : Str → Str
  | [] => []
  | c :: cs => if c = '\n' then removeNewlines cs else c :: removeNewlines cs

/-- Python `'\n'.join(...)`. -/
def joinNL : List Str → Str
  | [] => []
  | [a] => a
  | a :: b :: rest => a ++ '\n' :: joinNL (b :: rest)

/-- The accumulation loop of `merge_short_lines` (make_movie.py lines 57-66):
greedily extends `buffer` with the next line while the combined length stays
within the threshold, flushing the buffer otherwise. -/
def mergeLoop (threshold : ℤ) (buffer : Str) : List Str → List Str
  | [] => [buffer]
  | l :: ls =>
    if (buffer.length : ℤ) + (l.length : ℤ) ≤ threshold then
      mergeLoop threshold (buffer ++ l) ls
    else
      buffer :: mergeLoop threshold l ls

/-- Embedding of `merge_short_lines(text, threshold)` (make_movie.py
lines 41-67). -/
def merge_short_lines (text : Str) (threshold : ℤ) : Str :=
  if text = [] then text
  else
    let lines := splitLines text
    if lines.length ≤ 1 then text
    else joinNL (mergeLoop threshold lines.headI lines.tail)

/-- Length of the longest line of the text, as computed by
`max(len(line) for line in lines)` over the nonempty `text.split('\n')`. -/
def maxLineLen (text : Str) : ℕ :=
  ((splitLines text).map List.length).foldr Nat.max 0

/-- Embedding of `calculate_optimized_fontsize(text, base_fontsize,
target_width)` (make_movie.py lines 70-86); `0.95` is the exact rational
`19/20`. -/
def calculate_optimized_fontsize (text : Str) (base_fontsize : ℤ)
    (target_width : ℤ) : ℤ :=
  if text = [] then base_fontsize
  else
    let max_char_count := maxLineLen text
    if max_char_count = 0 then base_fontsize
    else
      min base_fontsize
        (pyInt (((target_width : ℚ) / (max_char_count : ℚ)) * (19 / 20)))

/-- Shapes a JSON background-colour value can take: a 3-element list/tuple,
a string, JSON null, or anything else. -/
inductive ColorVal where
  | rgb3 (r g b : ℤ)
  | str (s : Str)
  | null
  | other
  deriving DecidableEq

/-- Result of `normalize_background_color`: either a concrete RGB triple
(Python tuple) or the unconverted value passed through. -/
inductive NormColor where
  | rgb (r g b : ℤ)
  | raw (v : ColorVal)
  deriving DecidableEq

/-- Python whitespace test used by `str.strip()`. -/
def isPySpace (c : Char) : Bool :=
  c = ' ' || c = '\t' || c = '\n' || c = '\r' || c = '\x0b' || c = '\x0c'

/-- Python `str.strip()`: drop whitespace from both ends. -/
def pyStrip (s : Str) : Str :=
  ((s.dropWhile isPySpace).reverse.dropWhile isPySpace).reverse

/-- Python `str.lower()` on the character range used here. -/
def pyLower (s : Str) : Str := s.map Char.toLower

/-- Value of a hexadecimal digit, if the character is one. -/
def hexVal (c : Char) : Option ℕ :=
  if '0' ≤ c ∧ c ≤ '9' then some (c.toNat - '0'.toNat)
  else if 'a' ≤ c ∧ c ≤ 'f' then some (c.toNat - 'a'.toNat + 10)
  else if 'A' ≤ c ∧ c ≤ 'F' then some (c.toNat - 'A'.toNat + 10)
  else none

/-- Parse the six digits of a `#rrggbb` colour into an RGB triple. -/
def parseHex : Str → Option (ℤ × ℤ × ℤ)
  | [a, b, c, d, e, f] => do
    let r1 ← hexVal a
    let r2 ← hexVal b
    let g1 ← hexVal c
    let g2 ← hexVal d
    let b1 ← hexVal e
    let b2 ← hexVal f
    pure ((16 * r1 + r2 : ℕ), (16 * g1 + g2 : ℕ), (16 * b1 + b2 : ℕ))
  | _ => none

/-- Named-colour lookup and fallthrough of `normalize_background_color`
(make_movie.py lines 98-105): `white`/`black` map to their triples, any
other string is returned as-is (after the strip). -/
def checkNamed (s : Str) : NormColor :=
  if pyLower s = ['w', 'h', 'i', 't', 'e'] then NormColor.rgb 255 255 255
  else if pyLower s = ['b', 'l', 'a', 'c', 'k'] then NormColor.rgb 0 0 0
  else NormColor.raw (ColorVal.str s)

/-- Embedding of `normalize_background_color(color_value)` (make_movie.py
lines 89-105).  A 7-character `#`-string whose digits are not hexadecimal
raises `ValueError` in the source; that exception path is modelled as a
pass-through and is not exercised by any claim. -/
def normalize_background_color : ColorVal → NormColor
  | ColorVal.rgb3 r g b => NormColor.rgb r g b
  | ColorVal.null => NormColor.raw ColorVal.null
  | ColorVal.other => NormColor.raw ColorVal.other
  | ColorVal.str s =>
    match pyStrip s with
    | '#' :: rest =>
      if rest.length = 6 then
        match parseHex rest with
        | some (r, g, b) => NormColor.rgb r g b
        | none => NormColor.raw (ColorVal.str ('#' :: rest))
      else checkNamed ('#' :: rest)
    | s' => checkNamed s'

/-- One timed subtitle entry of a scene (`subtitles` list items). -/
structure Cue where
  text : Str
  style : Str
  start_offset : ℚ
  duration : Option ℚ
  position : ℤ × ℤ
  deriving DecidableEq, Inhabited

/-- One scene of the project description. -/
structure Scene where
  audio_path : Str
  image_path : Str
  animation : Option Str
  subtitles : List Cue
  deriving DecidableEq, Inhabited

/-- One entry of the style sheet document. -/
structure Style where
  fontsize : ℤ
  font : Str
  color : Str
  bg_color : Option Str
  stroke_color : Option Str
  stroke_width : Option ℚ
  deriving DecidableEq, Inhabited

/-- The `project_settings` object of the project description. -/
structure Settings where
  width : ℤ
  height : ℤ
  background_color : Option ColorVal
  bgm_path : Option Str
  bgm_volume : ℚ
  output_file : Str
  fps : ℚ
  deriving DecidableEq, Inhabited

/-- One visual layer of a composed scene, in stacking order. -/
inductive Layer where
  | background (color : ℤ × ℤ × ℤ) (width height : ℤ) (duration : ℚ)
  | image (path : Str) (duration : ℚ) (width : ℤ) (zoom : Bool)
  | textOverlay (text : Str) (font : Str) (fontSize : ℤ) (color : Str)
      (bgColor : Option Str) (strokeColor : Option Str) (strokeWidth : ℚ)
      (start : ℚ) (duration : ℚ) (pos : ℤ × ℤ)
  deriving DecidableEq, Inhabited

/-- A fully resolved scene: ordered layer stack, narration audio reference,
and total duration (= narration length). -/
structure SceneComposition where
  layers : List Layer
  audio : Str
  duration : ℚ
  deriving DecidableEq, Inhabited

/-- The optional trailing still appended after all scenes. -/
structure ThumbComposition where
  layers : List Layer
  duration : ℚ
  deriving DecidableEq, Inhabited

/-- Description of an audio track as the assembler builds it. -/
inductive AudioTrack where
  | concat (parts : List Str)
  | file (path : Str)
  | scaled (track : AudioTrack) (factor : ℚ)
  | trimmed (track : AudioTrack) (duration : ℚ)
  | mix (tracks : List AudioTrack)
  deriving Inhabited

/-- Terminal artifact of the core, handed to the external render backend. -/
structure ProjectTimeline where
  scenes : List SceneComposition
  thumbnail : Option ThumbComposition
  totalDuration : ℚ
  audio : AudioTrack
  deriving Inhabited

/-- Leading-separator test standing in for `os.path.isabs`. -/
def isAbsPath : Str → Bool
  | '/' :: _ => true
  | _ => false

/-- Embedding of `resolve_path(file_path, base_dir)` (make_movie.py
lines 33-38); `os.path.join` is modelled with a fixed `/` separator. -/
def resolve_path (file_path : Str) (base_dir : Option Str) : Str :=
  match base_dir with
  | none => file_path
  | some base =>
    if file_path = [] ∨ base = [] then file_path
    else if isAbsPath file_path then file_path
    else base ++ '/' :: file_path

/-- First-match association-list lookup, modelling `dict.get` on the parsed
style sheet (JSON object keys are unique, insertion order preserved). -/
def lookupStyle : List (Str × Style) → Str → Option Style
  | [], _ => none
  | (k, v) :: rest, idv => if k = idv then some v else lookupStyle rest idv

/-- The style id `caption_white`. -/
def captionWhite : Str :=
  ['c', 'a', 'p', 't', 'i', 'o', 'n', '_', 'w', 'h', 'i', 't', 'e']

/-- Embedding of `styles.get('caption_white') or next(iter(styles.values()))`
(make_movie.py line 161). -/
def defaultStyle (styles : List (Str × Style)) : Style :=
  match lookupStyle styles captionWhite with
  | some st => st
  | none => styles.headI.2

/-- Embedding of `styles.get(sub['style'], default_style)` (make_movie.py
line 165). -/
def resolveStyle (styles : List (Str × Style)) (idv : Str) : Style :=
  (lookupStyle styles idv).getD (defaultStyle styles)

/-- The cue duration before the negativity clamp, exactly as computed by
make_movie.py lines 170-182 for the cue `sub` at index `j` of `subtitles`
in a scene of total duration `D`. -/
def rawCueDuration (D : ℚ) (subtitles : List Cue) (j : ℕ) (sub : Cue) : ℚ :=
  match sub.duration with
  | some d => d
  | none =>
    if j < subtitles.length - 1 then
      (subtitles.getD (j + 1) sub).start_offset - sub.start_offset
    else
      D - sub.start_offset

/-- Absolute start and clamped duration assigned to a cue (make_movie.py
lines 168-186): the start is the cue's start offset; the duration is the
raw duration, replaced by `0.1` when negative. -/
def resolveCueTiming (D : ℚ) (subtitles : List Cue) (j : ℕ) (sub : Cue) :
    ℚ × ℚ :=
  let raw := rawCueDuration D subtitles j sub
  (sub.start_offset, if raw < 0 then (1 : ℚ) / 10 else raw)

/-- The animation tag `zoom_in`. -/
def zoomInTag : Str := ['z', 'o', 'o', 'm', '_', 'i', 'n']

/-- Default background colour string `white` used by
`settings.get('background_color', 'white')`. -/
def whiteDefault : ColorVal := ColorVal.str ['w', 'h', 'i', 't', 'e']

/-- Body of the subtitle loop (make_movie.py lines 164-219): resolve the
style, resolve timing, merge short lines at the fixed threshold 10, optimise
the font size against 90% of the canvas width, append the anti-clipping
trailing `"\n "`, and emit the text overlay layer. -/
def renderCue (settings : Settings) (styles : List (Str × Style)) (D : ℚ)
    (subtitles : List Cue) (j : ℕ) (sub : Cue) : Layer :=
  let style := resolveStyle styles sub.style
  let timing := resolveCueTiming D subtitles j sub
  let target_width := pyInt ((settings.width : ℚ) * (9 / 10))
  let merged_text := merge_short_lines sub.text 10
  let optimized_size :=
    calculate_optimized_fontsize merged_text style.fontsize target_width
  let display_text := merged_text ++ ['\n', ' ']
  Layer.textOverlay display_text style.font optimized_size style.color
    style.bg_color style.stroke_color (style.stroke_width.getD 0)
    timing.1 timing.2 sub.position

/-- Per-scene composition step (make_movie.py lines 128-228).  `ex` models
`os.path.exists`, `audioDur` models `AudioFileClip(...).duration`; `none`
models the `continue` that skips the scene after a missing-asset warning.
Only the first cue is rendered (`enumerate(subtitles[:1])`). -/
def composeScene (settings : Settings) (styles : List (Str × Style))
    (ex : Str → Bool) (audioDur : Str → ℚ)
    (image_base_dir audio_base_dir : Option Str) (s : Scene) :
    Option SceneComposition :=
  let audio_path := resolve_path s.audio_path audio_base_dir
  if ex audio_path = true then
    let duration := audioDur audio_path
    let img_path := resolve_path s.image_path image_base_dir
    if ex img_path = true then
      let imgLayer := Layer.image img_path duration settings.width
        (decide (s.animation = some zoomInTag))
      let bg := normalize_background_color
        (settings.background_color.getD whiteDefault)
      let baseLayers :=
        match bg with
        | NormColor.rgb r g b =>
          [Layer.background (r, g, b) settings.width settings.height duration,
           imgLayer]
        | NormColor.raw _ => [imgLayer]
      let textLayers :=
        match s.subtitles with
        | [] => []
        | sub :: _ => [renderCue settings styles duration s.subtitles 0 sub]
      some { layers := baseLayers ++ textLayers, audio := audio_path,
             duration := duration }
    else none
  else none

/-- Embedding of the assembly phase of `create_video_from_json`
(make_movie.py lines 108-287) over the already-parsed data: compose every
scene, fail when the style sheet is empty or no scene survives, append the
optional trailing still, and mix in the optional background music.  The
output-path handling and the external encode call are glue outside the
model; a `some` result is the resolved `ProjectTimeline` handed to the
render backend, `none` is an early return that produces no output file. -/
def create_video_from_json (settings : Settings)
    (styles : List (Str × Style)) (thumbnail_path : Option Str)
    (ex : Str → Bool) (audioDur : Str → ℚ)
    (image_base_dir audio_base_dir bgm_base_dir : Option Str)
    (scenes : List Scene) : Option ProjectTimeline :=
  if styles = [] then none
  else
    let comps := scenes.filterMap
      (composeScene settings styles ex audioDur image_base_dir audio_base_dir)
    if comps = [] then none
    else
      let baseDur := (comps.map SceneComposition.duration).sum
      let thumb : Option ThumbComposition :=
        match thumbnail_path with
        | none => none
        | some tp =>
          if tp = [] then none
          else
            let rtp := resolve_path tp image_base_dir
            if ex rtp = true then
              let thumbDur : ℚ := 1 / 2
              let timg := Layer.image rtp thumbDur settings.width false
              let bg := normalize_background_color
                (settings.background_color.getD whiteDefault)
              some { layers :=
                       match bg with
                       | NormColor.rgb r g b =>
                         [Layer.background (r, g, b) settings.width
                            settings.height thumbDur, timg]
                       | NormColor.raw _ => [timg],
                     duration := thumbDur }
            else none
      let totalDur := baseDur +
        (match thumb with | some t => t.duration | none => 0)
      let baseAudio := AudioTrack.concat (comps.map SceneComposition.audio)
      let finalAudio :=
        match settings.bgm_path with
        | none => baseAudio
        | some p =>
          let rp := resolve_path p bgm_base_dir
          if rp ≠ [] ∧ ex rp = true then
            AudioTrack.mix [baseAudio,
              AudioTrack.trimmed
                (AudioTrack.scaled (AudioTrack.file rp) settings.bgm_volume)
                totalDur]
          else baseAudio
      some { scenes := comps, thumbnail := thumb, totalDuration := totalDur,
             audio := finalAudio }

/-- Duration of a layer when it is a text overlay, `none` otherwise. -/
def overlayDuration : Layer → Option ℚ
  | Layer.textOverlay _ _ _ _ _ _ _ _ d _ => some d
  | _ => none

/-- Whether a layer is a text overlay. -/
def isTextOverlayB : Layer → Bool
  | Layer.textOverlay .. => true
  | _ => false

/-- Concrete style entry used by the witnesses below. -/
def testStyle : Style :=
  { fontsize := 40, font := ['f'], color := ['w'], bg_color := none,
    stroke_color := none, stroke_width := none }

/-- Concrete style sheet used by the witnesses below. -/
def testStyles : List (Str × Style) := [(captionWhite, testStyle)]

/-- Concrete project settings used by the witnesses below. -/
def testSettings : Settings :=
  { width := 100, height := 200,
    background_color := some (ColorVal.rgb3 0 0 0), bgm_path := none,
    bgm_volume := 1, output_file := ['o'], fps := 30 }

/-- Concrete project settings with a configured background-music asset,
used by the witnesses below. -/
def testSettingsBgm : Settings :=
  { width := 100, height := 200,
    background_color := some (ColorVal.rgb3 0 0 0),
    bgm_path := some ['b'], bgm_volume := 1 / 2, output_file := ['o'],
    fps := 30 }

/-- Concrete scene whose first cue has an out-of-order start offset (its
start 4 exceeds the next cue's start 1), used by the witnesses below. -/
def testSceneNeg : Scene :=
  { audio_path := ['a'], image_path := ['i'], animation := none,
    subtitles :=
      [{ text := ['x'], style := captionWhite, start_offset := 4,
         duration := none, position := (0, 0) },
       { text := ['y'], style := captionWhite, start_offset := 1,
         duration := none, position := (0, 0) }] }

/-! ### Auxiliary lemmas about the text layout engine -/

theorem splitLines_ne_nil (l : Str) : splitLines l ≠ [] := by
  cases l with
  | nil => simp [splitLines]
  | cons c cs =>
    simp only [splitLines]
    split <;> simp

theorem cons_headI_tail {α : Type} [Inhabited α] {l : List α} (h : l ≠ []) :
    l.headI :: l.tail = l := by
  cases l with
  | nil => exact absurd rfl h
  | cons a as => rfl

theorem headI_mem {α : Type} [Inhabited α] {l : List α} (h : l ≠ []) :
    l.headI ∈ l := by
  cases l with
  | nil => exact absurd rfl h
  | cons a as => simp

theorem join_splitLines (l : Str) :
    (splitLines l).flatten = removeNewlines l := by
  induction l with
  | nil => simp [splitLines, removeNewlines]
  | cons c cs ih =>
    simp only [splitLines, removeNewlines]
    by_cases hc : c = '\n'
    · simp [hc, ih]
    · obtain ⟨a, as, has⟩ : ∃ a as, splitLines cs = a :: as := by
        cases h : splitLines cs with
        | nil => exact absurd h (splitLines_ne_nil cs)
        | cons a as => exact ⟨a, as, rfl⟩
      rw [has, List.flatten_cons] at ih
      simp only [if_neg hc, has, List.headI, List.tail, List.flatten_cons,
        List.cons_append, ih]

theorem splitLines_no_newline (l : Str) :
    ∀ line ∈ splitLines l, '\n' ∉ line := by
  induction l with
  | nil => simp [splitLines]
  | cons c cs ih =>
    simp only [splitLines]
    by_cases hc : c = '\n'
    · simp only [if_pos hc, List.mem_cons]
      rintro line (rfl | hline)
      · simp
      · exact ih line hline
    · obtain ⟨a, as, has⟩ : ∃ a as, splitLines cs = a :: as := by
        cases h : splitLines cs with
        | nil => exact absurd h (splitLines_ne_nil cs)
        | cons a as => exact ⟨a, as, rfl⟩
      simp only [if_neg hc, has, List.headI, List.tail, List.mem_cons]
      rintro line (rfl | hline)
      · intro hmem
        rcases List.mem_cons.mp hmem with h1 | h1
        · exact hc h1.symm
        · exact ih a (by simp [has]) h1
      · exact ih line (by simp [has, hline])

theorem splitLines_append (a : Str) (cs : Str) (h : '\n' ∉ a) :
    splitLines (a ++ cs) =
      (a ++ (splitLines cs).headI) :: (splitLines cs).tail := by
  induction a with
  | nil =>
    simp only [List.nil_append]
    exact (cons_headI_tail (splitLines_ne_nil cs)).symm
  | cons c a' ih =>
    have hc : c ≠ '\n' := fun hcn => h (by simp [hcn])
    have ha' : '\n' ∉ a' := fun hm => h (by simp [hm])
    have hstep : splitLines (c :: (a' ++ cs)) =
        (c :: (splitLines (a' ++ cs)).headI) :: (splitLines (a' ++ cs)).tail := by
      simp [splitLines, hc]
    rw [List.cons_append, hstep, ih ha']
    simp

theorem splitLines_no_newline_singleton (a : Str) (h : '\n' ∉ a) :
    splitLines a = [a] := by
  have := splitLines_append a [] h
  simpa [splitLines] using this

theorem splitLines_joinNL (ls : List Str) (hne : ls ≠ [])
    (hnl : ∀ l ∈ ls, '\n' ∉ l) : splitLines (joinNL ls) = ls := by
  induction ls with
  | nil => exact absurd rfl hne
  | cons a tl ih =>
    cases tl with
    | nil =>
      simp only [joinNL]
      exact splitLines_no_newline_singleton a (hnl a (by simp))
    | cons b rest =>
      have ha : '\n' ∉ a := hnl a (by simp)
      simp only [joinNL]
      rw [splitLines_append a ('\n' :: joinNL (b :: rest)) ha]
      have hsplit : splitLines ('\n' :: joinNL (b :: rest)) =
          [] :: splitLines (joinNL (b :: rest)) := by
        simp [splitLines]
      rw [hsplit, ih (by simp) (fun l hl => hnl l (by simp [hl]))]
      simp

theorem removeNewlines_joinNL (ls : List Str) (hne : ls ≠ [])
    (hnl : ∀ l ∈ ls, '\n' ∉ l) :
    removeNewlines (joinNL ls) = ls.flatten := by
  have h1 := join_splitLines (joinNL ls)
  rw [splitLines_joinNL ls hne hnl] at h1
  exact h1.symm

theorem mergeLoop_ne_nil (t : ℤ) (b : Str) (ls : List Str) :
    mergeLoop t b ls ≠ [] := by
  induction ls generalizing b with
  | nil => simp [mergeLoop]
  | cons l ls ih =>
    simp only [mergeLoop]
    split
    · exact ih (b ++ l)
    · simp

theorem mergeLoop_length (t : ℤ) (b : Str) (ls : List Str) :
    (mergeLoop t b ls).length ≤ ls.length + 1 := by
  induction ls generalizing b with
  | nil => simp [mergeLoop]
  | cons l ls ih =>
    simp only [mergeLoop]
    split
    · exact le_trans (ih (b ++ l)) (by simp)
    · simpa using ih l

theorem mergeLoop_join (t : ℤ) (b : Str) (ls : List Str) :
    (mergeLoop t b ls).flatten = b ++ ls.flatten := by
  induction ls generalizing b with
  | nil => simp [mergeLoop]
  | cons l ls ih =>
    simp only [mergeLoop]
    split
    · rw [ih (b ++ l)]
      simp
    · simp [ih l]

theorem mergeLoop_no_newline (t : ℤ) (b : Str) (ls : List Str)
    (hb : '\n' ∉ b) (hls : ∀ l ∈ ls, '\n' ∉ l) :
    ∀ m ∈ mergeLoop t b ls, '\n' ∉ m := by
  induction ls generalizing b with
  | nil =>
    simp only [mergeLoop, List.mem_singleton]
    rintro m rfl
    exact hb
  | cons l ls ih =>
    simp only [mergeLoop]
    split
    · exact ih (b ++ l)
        (by
          intro hm
          rcases List.mem_append.mp hm with h1 | h1
          · exact hb h1
          · exact hls l (by simp) h1)
        (fun x hx => hls x (by simp [hx]))
    · intro m hm
      rcases List.mem_cons.mp hm with rfl | h1
      · exact hb
      · exact ih l (hls l (by simp)) (fun x hx => hls x (by simp [hx])) m h1

theorem mergeLoop_mem (t : ℤ) (b : Str) (ls : List Str) :
    ∀ m ∈ mergeLoop t b ls, m = b ∨ m ∈ ls ∨ (m.length : ℤ) ≤ t := by
  induction ls generalizing b with
  | nil =>
    simp only [mergeLoop, List.mem_singleton]
    rintro m rfl
    exact Or.inl rfl
  | cons l ls ih =>
    simp only [mergeLoop]
    split
    · intro m hm
      rcases ih (b ++ l) m hm with rfl | h1 | h1
      · right; right
        simpa using ‹(b.length : ℤ) + (l.length : ℤ) ≤ t›
      · exact Or.inr (Or.inl (by simp [h1]))
      · exact Or.inr (Or.inr h1)
    · intro m hm
      rcases List.mem_cons.mp hm with rfl | h1
      · exact Or.inl rfl
      · rcases ih l m h1 with rfl | h2 | h2
        · exact Or.inr (Or.inl (by simp))
        · exact Or.inr (Or.inl (by simp [h2]))
        · exact Or.inr (Or.inr h2)

/-! ### Claims C3 and C10: merge_short_lines -/

/-- C3: for every text input and threshold, `merge_short_lines` returns text
with at most as many lines as the input, the same non-newline characters in
the same order, and returns empty or single-line input unchanged. -/
theorem merge_short_lines_spec (text : Str) (threshold : ℤ) :
    (splitLines (merge_short_lines text threshold)).length ≤
      (splitLines text).length ∧
    removeNewlines (merge_short_lines text threshold) = removeNewlines text ∧
    ((splitLines text).length ≤ 1 → merge_short_lines text threshold = text) := by
  by_cases h0 : text = []
  · subst h0
    simp [merge_short_lines]
  · by_cases h1 : (splitLines text).length ≤ 1
    · simp [merge_short_lines, h0, h1]
    · have hne := splitLines_ne_nil text
      have hres : merge_short_lines text threshold =
          joinNL (mergeLoop threshold (splitLines text).headI
            (splitLines text).tail) := by
        simp [merge_short_lines, h0, h1]
      have hMne : mergeLoop threshold (splitLines text).headI
          (splitLines text).tail ≠ [] := mergeLoop_ne_nil _ _ _
      have hnl : ∀ l ∈ splitLines text, '\n' ∉ l :=
        splitLines_no_newline text
      have hheadnl : '\n' ∉ (splitLines text).headI := hnl _ (headI_mem hne)
      have htailnl : ∀ l ∈ (splitLines text).tail, '\n' ∉ l :=
        fun l hl => hnl l (List.mem_of_mem_tail hl)
      have hMnl : ∀ m ∈ mergeLoop threshold (splitLines text).headI
          (splitLines text).tail, '\n' ∉ m :=
        mergeLoop_no_newline _ _ _ hheadnl htailnl
      have hsplit := splitLines_joinNL _ hMne hMnl
      refine ⟨?_, ?_, fun hcon => absurd hcon h1⟩
      · rw [hres, hsplit]
        have h2 := mergeLoop_length threshold (splitLines text).headI
          (splitLines text).tail
        have h3 : (splitLines text).tail.length + 1 =
            (splitLines text).length := by
          cases h : splitLines text with
          | nil => exact absurd h hne
          | cons a as => simp
        omega
      · rw [hres, removeNewlines_joinNL _ hMne hMnl, mergeLoop_join]
        calc (splitLines text).headI ++ (splitLines text).tail.flatten
            = ((splitLines text).headI :: (splitLines text).tail).flatten := by
              rw [List.flatten_cons]
          _ = (splitLines text).flatten := by rw [cons_headI_tail hne]
          _ = removeNewlines text := join_splitLines text

/-- Witness for C3 at concrete inputs: a two-line text is merged without
changing its non-newline characters, and a single-line text is unchanged. -/
theorem merge_short_lines_spec_witness :
    ((splitLines (merge_short_lines ['a', 'b', '\n', 'c', 'd'] 10)).length ≤
      (splitLines ['a', 'b', '\n', 'c', 'd']).length ∧
    removeNewlines (merge_short_lines ['a', 'b', '\n', 'c', 'd'] 10) =
      removeNewlines ['a', 'b', '\n', 'c', 'd']) ∧
    merge_short_lines ['a'] 10 = ['a'] :=
  ⟨⟨(merge_short_lines_spec ['a', 'b', '\n', 'c', 'd'] 10).1,
    (merge_short_lines_spec ['a', 'b', '\n', 'c', 'd'] 10).2.1⟩,
    (merge_short_lines_spec ['a'] 10).2.2 (by decide)⟩

/-- C10: every line of the output of `merge_short_lines` either fits within
the threshold or is one of the input's original lines verbatim; hence a line
formed by joining two or more input lines never exceeds the threshold, and
an over-threshold line can only appear unmerged. -/
theorem merged_lines_within_threshold (text : Str) (threshold : ℤ) :
    ∀ line ∈ splitLines (merge_short_lines text threshold),
      (line.length : ℤ) ≤ threshold ∨ line ∈ splitLines text := by
  intro line hline
  by_cases h0 : text = []
  · right
    simpa [merge_short_lines, h0] using hline
  · by_cases h1 : (splitLines text).length ≤ 1
    · right
      rw [merge_short_lines, if_neg h0] at hline
      simp only [h1, if_pos] at hline
      exact hline
    · have hne := splitLines_ne_nil text
      have hres : merge_short_lines text threshold =
          joinNL (mergeLoop threshold (splitLines text).headI
            (splitLines text).tail) := by
        simp [merge_short_lines, h0, h1]
      have hMne : mergeLoop threshold (splitLines text).headI
          (splitLines text).tail ≠ [] := mergeLoop_ne_nil _ _ _
      have hMnl : ∀ m ∈ mergeLoop threshold (splitLines text).headI
          (splitLines text).tail, '\n' ∉ m :=
        mergeLoop_no_newline _ _ _
          (splitLines_no_newline text _ (headI_mem hne))
          (fun l hl => splitLines_no_newline text l (List.mem_of_mem_tail hl))
      rw [hres, splitLines_joinNL _ hMne hMnl] at hline
      rcases mergeLoop_mem threshold (splitLines text).headI
          (splitLines text).tail line hline with rfl | h | h
      · exact Or.inr (headI_mem hne)
      · exact Or.inr (List.mem_of_mem_tail h)
      · exact Or.inl h

/-- Witness for C10: in the merged output of a concrete two-line text the
single produced line fits the threshold or is an original line. -/
theorem merged_lines_within_threshold_witness :
    ((['a', 'b', 'c', 'd'] : Str).length : ℤ) ≤ 10 ∨
      (['a', 'b', 'c', 'd'] : Str) ∈ splitLines ['a', 'b', '\n', 'c', 'd'] :=
  merged_lines_within_threshold ['a', 'b', '\n', 'c', 'd'] 10
    ['a', 'b', 'c', 'd'] (by decide)

/-! ### Claim C2: calculate_optimized_fontsize -/

/-- C2 counterexample: `calculate_optimized_fontsize` can return a value
below 1 — with text `"ab"`, base size 5 and target width 1 the candidate
`int((1/2)*0.95)` is 0, so the result is 0, refuting the claimed lower
bound 1. -/
theorem fontsize_below_one_counterexample :
    calculate_optimized_fontsize ['a', 'b'] 5 1 = 0 ∧ ¬ (1 : ℤ) ≤ 0 := by
  have hmax : maxLineLen ['a', 'b'] = 2 := by decide
  constructor
  · norm_num [calculate_optimized_fontsize, hmax, pyInt]
    decide
  · decide

/-- C2 amended: the result never exceeds `base_fontsize`; it is at least 1
provided `base_fontsize ≥ 1` and the longest line is short enough that the
candidate `int((target_width / max_line_length) * 0.95)` is at least 1,
i.e. `20 * max_line_length ≤ 19 * target_width`. -/
theorem fontsize_bounds (text : Str) (base_fontsize target_width : ℤ) :
    calculate_optimized_fontsize text base_fontsize target_width ≤
      base_fontsize ∧
    (1 ≤ base_fontsize → 20 * (maxLineLen text : ℤ) ≤ 19 * target_width →
      1 ≤ calculate_optimized_fontsize text base_fontsize target_width) := by
  unfold calculate_optimized_fontsize
  by_cases h0 : text = []
  · simp [h0]
    exact fun hb _ => hb
  · simp only [if_neg h0]
    by_cases hm : maxLineLen text = 0
    · simp [hm]
      exact fun hb _ => hb
    · simp only [hm, if_neg (fun h => hm h)]
      constructor
      · exact min_le_left _ _
      · intro hb htw
        refine le_min hb ?_
        have hmpos : 0 < (maxLineLen text : ℚ) := by
          exact_mod_cast Nat.pos_of_ne_zero hm
        have hq : (1 : ℚ) ≤
            (target_width : ℚ) / (maxLineLen text : ℚ) * (19 / 20) := by
          rw [div_mul_eq_mul_div, le_div_iff hmpos]
          have htw' : 20 * (maxLineLen text : ℚ) ≤ 19 * (target_width : ℚ) := by
            exact_mod_cast htw
          nlinarith
        have hq0 : ¬ (target_width : ℚ) / (maxLineLen text : ℚ) * (19 / 20) < 0 := by
          intro hlt
          linarith
        rw [pyInt, if_neg hq0]
        exact Int.le_floor.mpr (by exact_mod_cast hq)

/-- Witness for the amended C2 at concrete inputs: with text `"ab"`, base
size 40 and target width 100 the result lies in `[1, 40]`. -/
theorem fontsize_bounds_witness :
    calculate_optimized_fontsize ['a', 'b'] 40 100 ≤ 40 ∧
    1 ≤ calculate_optimized_fontsize ['a', 'b'] 40 100 :=
  ⟨(fontsize_bounds ['a', 'b'] 40 100).1,
   (fontsize_bounds ['a', 'b'] 40 100).2 (by decide) (by decide)⟩

/-! ### Claims C1 and C4: cue timing resolution -/

/-- C1 counterexample: a declared explicit duration is not used verbatim
when it is negative — for a single cue with explicit duration `-1` in a
scene of duration 10 the resolver assigns `0.1`, not `-1`. -/
theorem cue_explicit_negative_not_verbatim :
    (resolveCueTiming 10
      [{ text := [], style := [], start_offset := 0, duration := some (-1),
         position := (0, 0) }] 0
      { text := [], style := [], start_offset := 0, duration := some (-1),
        position := (0, 0) }).2 = 1 / 10 ∧ ((1 : ℚ) / 10) ≠ -1 := by
  constructor
  · norm_num [resolveCueTiming, rawCueDuration]
  · norm_num

/-- C1 amended: the resolver assigns the cue at position `j` its declared
explicit duration when one is present, else `next_cue.start − this_cue.start`
when a next cue exists, else `D − this_cue.start`, in each case provided the
value is nonnegative; a negative computed duration is replaced by `0.1`; and
the cue's absolute start equals its start offset. -/
theorem cue_timing_resolution (D : ℚ) (subtitles : List Cue) (j : ℕ)
    (sub : Cue) (hj : subtitles[j]? = some sub) :
    (resolveCueTiming D subtitles j sub).1 = sub.start_offset ∧
    (∀ d : ℚ, sub.duration = some d → 0 ≤ d →
      (resolveCueTiming D subtitles j sub).2 = d) ∧
    (∀ nxt : Cue, sub.duration = none → subtitles[j + 1]? = some nxt →
      0 ≤ nxt.start_offset - sub.start_offset →
      (resolveCueTiming D subtitles j sub).2 =
        nxt.start_offset - sub.start_offset) ∧
    (sub.duration = none → j + 1 = subtitles.length →
      0 ≤ D - sub.start_offset →
      (resolveCueTiming D subtitles j sub).2 = D - sub.start_offset) ∧
    (rawCueDuration D subtitles j sub < 0 →
      (resolveCueTiming D subtitles j sub).2 = 1 / 10) := by
  refine ⟨rfl, ?_, ?_, ?_, ?_⟩
  · intro d hd hd0
    have hraw : rawCueDuration D subtitles j sub = d := by
      simp [rawCueDuration, hd]
    simp [resolveCueTiming, hraw, not_lt.mpr hd0]
  · intro nxt hd hnxt h0
    have hlt : j + 1 < subtitles.length := by
      rcases List.getElem?_eq_some.mp hnxt with ⟨h, _⟩
      exact h
    have hget : subtitles.getD (j + 1) sub = nxt := by
      rw [List.getD_eq_getElem?_getD, hnxt]
      rfl
    have hraw : rawCueDuration D subtitles j sub =
        nxt.start_offset - sub.start_offset := by
      rw [rawCueDuration, hd]
      simp only [hget, if_pos (by omega : j < subtitles.length - 1)]
    rw [resolveCueTiming]
    simp [hraw, not_lt.mpr h0]
  · intro hd hlen h0
    have hraw : rawCueDuration D subtitles j sub = D - sub.start_offset := by
      rw [rawCueDuration, hd]
      simp only [if_neg (by omega : ¬ j < subtitles.length - 1)]
    rw [resolveCueTiming]
    simp [hraw, not_lt.mpr h0]
  · intro hneg
    simp [resolveCueTiming, hneg]

/-- Witness for the amended C1 (Scenario A of the spec): one cue at start
2.0 with no explicit duration in a 10.0-duration scene resolves to start 2.0
and duration 8.0. -/
theorem cue_timing_resolution_witness :
    (resolveCueTiming 10
      [{ text := [], style := [], start_offset := 2, duration := none,
         position := (0, 0) }] 0
      { text := [], style := [], start_offset := 2, duration := none,
        position := (0, 0) }).1 = 2 ∧
    (resolveCueTiming 10
      [{ text := [], style := [], start_offset := 2, duration := none,
         position := (0, 0) }] 0
      { text := [], style := [], start_offset := 2, duration := none,
        position := (0, 0) }).2 = 10 - 2 :=
  ⟨(cue_timing_resolution 10 _ 0 _ rfl).1,
   (cue_timing_resolution 10 _ 0 _ rfl).2.2.2.1 rfl rfl (by norm_num)⟩

/-! ### Claim C7: unknown style identifiers fall back to the default -/

theorem lookupStyle_eq_none (styles : List (Str × Style)) (idv : Str)
    (habs : ∀ p ∈ styles, p.1 ≠ idv) : lookupStyle styles idv = none := by
  induction styles with
  | nil => rfl
  | cons p rest ih =>
    cases p with
    | mk k v =>
      rw [lookupStyle, if_neg (habs (k, v) (by simp))]
      exact ih (fun q hq => habs q (by simp [hq]))

/-- C7: a cue whose style identifier is absent from the (nonempty) style
sheet resolves without failing to the designated default: the entry named
`caption_white` when present, otherwise the first declared entry. -/
theorem unknown_style_fallback (styles : List (Str × Style)) (idv : Str)
    (hne : styles ≠ []) (habs : ∀ p ∈ styles, p.1 ≠ idv) :
    (∃ st, lookupStyle styles captionWhite = some st ∧
      resolveStyle styles idv = st) ∨
    (lookupStyle styles captionWhite = none ∧
      resolveStyle styles idv = styles.headI.2) := by
  have h1 : resolveStyle styles idv = defaultStyle styles := by
    rw [resolveStyle, lookupStyle_eq_none styles idv habs]
    rfl
  cases hcw : lookupStyle styles captionWhite with
  | some st => exact Or.inl ⟨st, rfl, by rw [h1, defaultStyle, hcw]⟩
  | none => exact Or.inr ⟨rfl, by rw [h1, defaultStyle, hcw]⟩

/-- Witness for C7: resolving the absent style id `"b"` against the
concrete sheet yields its `caption_white` entry. -/
theorem unknown_style_fallback_witness :
    resolveStyle testStyles ['b'] = testStyle := by
  have hcw : lookupStyle testStyles captionWhite = some testStyle := by
    rw [testStyles, captionWhite, lookupStyle, if_pos rfl]
  rcases unknown_style_fallback testStyles ['b'] (by simp [testStyles])
      (by
        intro p hp
        simp only [testStyles, List.mem_singleton] at hp
        subst hp
        decide) with ⟨st, hst, hres⟩ | ⟨hcw', _⟩
  · rw [hcw] at hst
    rw [hres, ← Option.some.inj hst]
  · rw [hcw] at hcw'
    exact absurd hcw' (by simp)

/-! ### Claim C9: assembly is deterministic in its inputs -/

/-- C9: two runs of the assembly on equal project data, style sheet and
asset-resolution results produce identical project timelines — the output
depends only on the declared inputs. -/
theorem assembly_deterministic (settings : Settings)
    (styles : List (Str × Style)) (thumbnail_path : Option Str)
    (ex1 ex2 : Str → Bool) (d1 d2 : Str → ℚ) (ib ab bb : Option Str)
    (scenes : List Scene) (hex : ∀ p, ex1 p = ex2 p)
    (hdur : ∀ p, d1 p = d2 p) :
    create_video_from_json settings styles thumbnail_path ex1 d1
      ib ab bb scenes =
    create_video_from_json settings styles thumbnail_path ex2 d2
      ib ab bb scenes := by
  have h1 : ex1 = ex2 := funext hex
  have h2 : d1 = d2 := funext hdur
  rw [h1, h2]

/-- Witness for C9 at concrete inputs with pointwise-equal oracles. -/
theorem assembly_deterministic_witness :
    create_video_from_json testSettings testStyles none
      (fun _ => false) (fun _ => 0) none none none [] =
    create_video_from_json testSettings testStyles none
      (fun p => false || false) (fun p => 0 + 0) none none none [] :=
  assembly_deterministic testSettings testStyles none
    (fun _ => false) (fun p => false || false) (fun _ => 0) (fun p => 0 + 0)
    none none none [] (fun p => by simp) (fun p => by simp)

/-! ### Claim C5: missing assets skip the scene; zero surviving scenes are fatal -/

/-- C5: a scene whose narration audio or image asset does not resolve is
skipped (no composition is produced for it) without aborting the run — any
timeline produced still contains exactly the surviving scenes in order —
and when zero scenes survive the assembly fails and produces no output. -/
theorem missing_asset_skip_and_empty_fatal (settings : Settings)
    (styles : List (Str × Style)) (thumbnail_path : Option Str)
    (ex : Str → Bool) (audioDur : Str → ℚ) (ib ab bb : Option Str)
    (s : Scene) (scenes : List Scene) :
    (ex (resolve_path s.audio_path ab) = false →
      composeScene settings styles ex audioDur ib ab s = none) ∧
    (ex (resolve_path s.image_path ib) = false →
      composeScene settings styles ex audioDur ib ab s = none) ∧
    (scenes.filterMap (composeScene settings styles ex audioDur ib ab) = [] →
      create_video_from_json settings styles thumbnail_path ex audioDur
        ib ab bb scenes = none) ∧
    (∀ tl, create_video_from_json settings styles thumbnail_path ex audioDur
        ib ab bb scenes = some tl →
      tl.scenes =
        scenes.filterMap (composeScene settings styles ex audioDur ib ab)) := by
  refine ⟨?_, ?_, ?_, ?_⟩
  · intro hA
    simp only [composeScene, hA]
    simp
  · intro hI
    by_cases hA : ex (resolve_path s.audio_path ab) = true
    · simp only [composeScene, hA, hI]
      simp
    · simp only [composeScene, hA]
      simp [hA]
  · intro hempty
    by_cases hs : styles = []
    · simp [create_video_from_json, hs]
    · simp only [create_video_from_json, if_neg hs, hempty]
      simp
  · intro tl htl
    by_cases hs : styles = []
    · simp [create_video_from_json, hs] at htl
    · by_cases hempty :
        scenes.filterMap (composeScene settings styles ex audioDur ib ab) = []
      · simp only [create_video_from_json, if_neg hs, hempty] at htl
        simp at htl
      · simp only [create_video_from_json, if_neg hs, if_neg hempty] at htl
        rw [← Option.some.inj htl]

/-- Witness for C5: with an oracle that resolves no asset, the single-scene
project yields no composition for the scene and no output timeline. -/
theorem missing_asset_skip_and_empty_fatal_witness :
    composeScene testSettings testStyles (fun _ => false) (fun _ => 2)
      none none testSceneNeg = none ∧
    create_video_from_json testSettings testStyles none (fun _ => false)
      (fun _ => 2) none none none [testSceneNeg] = none :=
  ⟨(missing_asset_skip_and_empty_fatal testSettings testStyles none
      (fun _ => false) (fun _ => 2) none none none testSceneNeg
      [testSceneNeg]).1 rfl,
   (missing_asset_skip_and_empty_fatal testSettings testStyles none
      (fun _ => false) (fun _ => 2) none none none testSceneNeg
      [testSceneNeg]).2.2.1
      (by
        rw [List.filterMap]
        simp only [composeScene]
        simp)⟩

/-! ### Claims C4 and C6: scene composition -/

theorem composeScene_eq_some (settings : Settings)
    (styles : List (Str × Style)) (ex : Str → Bool) (audioDur : Str → ℚ)
    (ib ab : Option Str) (s : Scene)
    (hA : ex (resolve_path s.audio_path ab) = true)
    (hI : ex (resolve_path s.image_path ib) = true) :
    composeScene settings styles ex audioDur ib ab s =
      some (SceneComposition.mk
        ((match normalize_background_color
            (settings.background_color.getD whiteDefault) with
         | NormColor.rgb r g b =>
           [Layer.background (r, g, b) settings.width settings.height
              (audioDur (resolve_path s.audio_path ab)),
            Layer.image (resolve_path s.image_path ib)
              (audioDur (resolve_path s.audio_path ab)) settings.width
              (decide (s.animation = some zoomInTag))]
         | NormColor.raw _ =>
           [Layer.image (resolve_path s.image_path ib)
              (audioDur (resolve_path s.audio_path ab)) settings.width
              (decide (s.animation = some zoomInTag))]) ++
        (match s.subtitles with
         | [] => []
         | sub :: _ => [renderCue settings styles
             (audioDur (resolve_path s.audio_path ab)) s.subtitles 0 sub]))
        (resolve_path s.audio_path ab)
        (audioDur (resolve_path s.audio_path ab))) := by
  simp only [composeScene, hA, hI]
  simp

/-- C4: whenever the raw computed duration of the first (rendered) cue is
negative, the resolver substitutes the floor duration 0.1 and the scene is
still composed: composition succeeds and its unique text overlay carries
duration 0.1 rather than an error being raised. -/
theorem negative_duration_clamped (settings : Settings)
    (styles : List (Str × Style)) (ex : Str → Bool) (audioDur : Str → ℚ)
    (ib ab : Option Str) (s : Scene) (sub : Cue) (rest : List Cue)
    (hsubs : s.subtitles = sub :: rest)
    (hA : ex (resolve_path s.audio_path ab) = true)
    (hI : ex (resolve_path s.image_path ib) = true)
    (hneg : rawCueDuration (audioDur (resolve_path s.audio_path ab))
      s.subtitles 0 sub < 0) :
    ∃ comp, composeScene settings styles ex audioDur ib ab s = some comp ∧
      comp.layers.filterMap overlayDuration = [1 / 10] := by
  refine ⟨_, composeScene_eq_some settings styles ex audioDur ib ab s hA hI,
    ?_⟩
  rw [hsubs] at hneg ⊢
  cases hbg : normalize_background_color
      (settings.background_color.getD whiteDefault) with
  | rgb r g b =>
    simp [overlayDuration, renderCue, resolveCueTiming, hneg]
  | raw v =>
    simp [overlayDuration, renderCue, resolveCueTiming, hneg]

/-- Witness for C4: a concrete scene whose first cue starts after the next
cue's start (raw duration −3) is still composed, with overlay duration 0.1. -/
theorem negative_duration_clamped_witness :
    ((composeScene testSettings testStyles (fun _ => true) (fun _ => 2)
        none none testSceneNeg).getD default).layers.filterMap
      overlayDuration = [1 / 10] := by
  obtain ⟨comp, hc, hd⟩ := negative_duration_clamped testSettings testStyles
    (fun _ => true) (fun _ => 2) none none testSceneNeg _ _ rfl rfl rfl
    (by norm_num [rawCueDuration, testSceneNeg])
  rw [hc]
  simpa using hd

/-- C6: every composed scene has at most one text overlay — rendered from
the first cue of the subtitle list, all later cues producing no layer —
and its layers are ordered: optional background fill, then the image, then
the optional text overlay. -/
theorem first_cue_only_layer_order (settings : Settings)
    (styles : List (Str × Style)) (ex : Str → Bool) (audioDur : Str → ℚ)
    (ib ab : Option Str) (s : Scene) (comp : SceneComposition)
    (h : composeScene settings styles ex audioDur ib ab s = some comp) :
    comp.layers.countP isTextOverlayB ≤ 1 ∧
    ∃ bg : List Layer,
      (bg = [] ∨ ∃ r g b : ℤ,
        bg = [Layer.background (r, g, b) settings.width settings.height
          comp.duration]) ∧
      comp.layers = bg ++
        Layer.image (resolve_path s.image_path ib) comp.duration
          settings.width (decide (s.animation = some zoomInTag)) ::
        (s.subtitles.take 1).map
          (renderCue settings styles comp.duration s.subtitles 0) := by
  by_cases hA : ex (resolve_path s.audio_path ab) = true
  case neg =>
    rw [composeScene] at h
    simp [hA] at h
  by_cases hI : ex (resolve_path s.image_path ib) = true
  case neg =>
    rw [composeScene] at h
    simp [hA, hI] at h
  rw [composeScene_eq_some settings styles ex audioDur ib ab s hA hI] at h
  cases Option.some.inj h
  cases hbg : normalize_background_color
      (settings.background_color.getD whiteDefault) with
  | rgb r g b =>
    cases hsubs : s.subtitles with
    | nil =>
      refine ⟨?_, [Layer.background (r, g, b) settings.width settings.height
        (audioDur (resolve_path s.audio_path ab))],
        Or.inr ⟨r, g, b, rfl⟩, ?_⟩
      · simp [hbg, hsubs, isTextOverlayB]
      · simp [hbg, hsubs]
    | cons sub rest =>
      refine ⟨?_, [Layer.background (r, g, b) settings.width settings.height
        (audioDur (resolve_path s.audio_path ab))],
        Or.inr ⟨r, g, b, rfl⟩, ?_⟩
      · simp [hbg, hsubs, isTextOverlayB, renderCue]
      · simp [hbg, hsubs]
  | raw v =>
    cases hsubs : s.subtitles with
    | nil =>
      refine ⟨?_, [], Or.inl rfl, ?_⟩
      · simp [hbg, hsubs, isTextOverlayB]
      · simp [hbg, hsubs]
    | cons sub rest =>
      refine ⟨?_, [], Or.inl rfl, ?_⟩
      · simp [hbg, hsubs, isTextOverlayB, renderCue]
      · simp [hbg, hsubs]

/-- Witness for C6: the composition of a concrete scene with two cues has
at most one text overlay. -/
theorem first_cue_only_layer_order_witness :
    (((composeScene testSettings testStyles (fun _ => true) (fun _ => 2)
        none none testSceneNeg).getD default).layers.countP
      isTextOverlayB) ≤ 1 :=
  (first_cue_only_layer_order testSettings testStyles (fun _ => true)
    (fun _ => 2) none none testSceneNeg _ rfl).1

/-! ### Claim C8: background-music mixing policy -/

/-- C8: when a background-music asset is configured and resolves, the
timeline's audio becomes the original concatenated scene audio mixed with
the music bed set to exactly the total timeline duration and scaled by the
configured `bgm_volume`; when it is not configured or does not resolve, the
timeline audio is left unchanged. -/
theorem bgm_mix_policy (settings : Settings) (styles : List (Str × Style))
    (thumbnail_path : Option Str) (ex : Str → Bool) (audioDur : Str → ℚ)
    (ib ab bb : Option Str) (scenes : List Scene) (tl : ProjectTimeline)
    (h : create_video_from_json settings styles thumbnail_path ex audioDur
      ib ab bb scenes = some tl) :
    (∀ p, settings.bgm_path = some p → resolve_path p bb ≠ [] →
      ex (resolve_path p bb) = true →
      tl.audio = AudioTrack.mix
        [AudioTrack.concat (tl.scenes.map SceneComposition.audio),
         AudioTrack.trimmed
           (AudioTrack.scaled (AudioTrack.file (resolve_path p bb))
             settings.bgm_volume) tl.totalDuration]) ∧
    (∀ p, settings.bgm_path = some p →
      ¬(resolve_path p bb ≠ [] ∧ ex (resolve_path p bb) = true) →
      tl.audio = AudioTrack.concat (tl.scenes.map SceneComposition.audio)) ∧
    (settings.bgm_path = none →
      tl.audio = AudioTrack.concat (tl.scenes.map SceneComposition.audio)) := by
  by_cases hs : styles = []
  · simp [create_video_from_json, hs] at h
  by_cases hc : scenes.filterMap
      (composeScene settings styles ex audioDur ib ab) = []
  · simp only [create_video_from_json, if_neg hs, hc] at h
    simp at h
  simp only [create_video_from_json, if_neg hs, if_neg hc] at h
  cases Option.some.inj h
  refine ⟨?_, ?_, ?_⟩
  · intro p hp hne hex
    simp only [hp]
    rw [if_pos ⟨hne, hex⟩]
  · intro p hp hcond
    simp only [hp]
    rw [if_neg hcond]
  · intro hp
    simp only [hp]

/-- Witness for C8: with a resolving music asset the concrete project's
final audio is the scene audio mixed with the volume-scaled,
duration-trimmed music bed. -/
theorem bgm_mix_policy_witness :
    ((create_video_from_json testSettingsBgm testStyles none (fun _ => true)
        (fun _ => 2) none none none [testSceneNeg]).getD default).audio =
      AudioTrack.mix
        [AudioTrack.concat
          ((((create_video_from_json testSettingsBgm testStyles none
              (fun _ => true) (fun _ => 2) none none none
              [testSceneNeg]).getD default).scenes).map
            SceneComposition.audio),
         AudioTrack.trimmed
           (AudioTrack.scaled (AudioTrack.file (resolve_path ['b'] none))
             testSettingsBgm.bgm_volume)
           ((create_video_from_json testSettingsBgm testStyles none
              (fun _ => true) (fun _ => 2) none none none
              [testSceneNeg]).getD default).totalDuration] :=
  (bgm_mix_policy testSettingsBgm testStyles none (fun _ => true)
    (fun _ => 2) none none none [testSceneNeg] _ rfl).1 ['b'] rfl
    (by decide) rfl
